import Mathlib

/-!
Shallow embedding of the `mptcp` Go package (files `check_others.go`,
non-Linux stub, and the Linux implementation) and proofs about its
specification.

Strings are modelled as Lean `String`, machine bytes and the `uint16` port
as `Nat` with explicit `% 256` / division where the Go code manipulates
byte buffers.  Fallible Go functions returning `(T, error)` become
`Except GoErr T`; functions returning `(bool, error)` become
`Bool × Option GoErr`.
-/

set_option maxHeartbeats 1000000

namespace Mptcp

/-- Error values used by the package: `ErrInvalidIPAddress`,
`ErrIPv6NotImplemented`, `ErrNotImplemented` (from the package's error
declarations referenced in the source), `errInvalidMPTCPEntry`,
`errInvalidMPTCPTable`, `io.ErrUnexpectedEOF`, and arbitrary I/O read
errors carried by a stream. -/
inductive GoErr where
  | invalidIPAddress
  | ipv6NotImplemented
  | notImplemented
  | invalidEntry
  | invalidTable
  | unexpectedEOF
  | ioError (msg : String)
deriving DecidableEq, Repr

/-- Lowercase hex digit table of Go's `fmt` verb `%x`
(`"0123456789abcdef"`); indices used by this package are always `< 16`. -/
def hexDigitChar : Nat → Char
  | 0 => '0' | 1 => '1' | 2 => '2' | 3 => '3'
  | 4 => '4' | 5 => '5' | 6 => '6' | 7 => '7'
  | 8 => '8' | 9 => '9' | 10 => 'a' | 11 => 'b'
  | 12 => 'c' | 13 => 'd' | 14 => 'e' | 15 => 'f'
  | _ => '0'

/-- Go's `fmt.Sprintf("%02x", b)` applied to a byte value `b < 256`:
two lowercase hex digits. -/
def hex02 (n : Nat) : String := String.mk [hexDigitChar (n / 16), hexDigitChar (n % 16)]

/-! ### Model of `net.ParseIP`, `IP.To4`, `IP.To16`

Go's `net.ParseIP` scans for the first `'.'` or `':'`: a dot selects the
dotted-decimal IPv4 parser (whose result is stored in the 16-byte
IPv4-in-IPv6 form), a colon selects the IPv6 parser (which accepts a
trailing embedded dotted IPv4 quad and a single `::` ellipsis).  An `IP`
is modelled as its byte slice, `List Nat`, each entry `< 256`. -/

/-- First 12 bytes of the IPv4-in-IPv6 form (`v4InV6Prefix` in Go's
`net` package): ten zero bytes then `0xff, 0xff`. -/
def v4MappedFront : List Nat := [0, 0, 0, 0, 0, 0, 0, 0, 0, 0, 255, 255]

/-- Decimal digit value, used by the dotted-quad parser. -/
def decVal (c : Char) : Option Nat :=
  if '0' ≤ c ∧ c ≤ '9' then some (c.toNat - '0'.toNat) else none

/-- Hex digit value (both cases), used by the IPv6 group parser. -/
def hexVal (c : Char) : Option Nat :=
  if '0' ≤ c ∧ c ≤ '9' then some (c.toNat - '0'.toNat)
  else if 'a' ≤ c ∧ c ≤ 'f' then some (c.toNat - 'a'.toNat + 10)
  else if 'A' ≤ c ∧ c ≤ 'F' then some (c.toNat - 'A'.toNat + 10)
  else none

/-- Split a character list on every occurrence of `sep`, keeping empty
pieces (like Go's `strings.Split` on a single-character separator). -/
def splitOnChar (sep : Char) : List Char → List (List Char)
  | [] => [[]]
  | c :: rest =>
    let r := splitOnChar sep rest
    if c = sep then [] :: r
    else
      match r with
      | h :: t => (c :: h) :: t
      | [] => [[c]]

/-- One field of a dotted-decimal IPv4 address: one to three decimal
digits with value at most 255 (Go's `dtoi` bounds check). -/
def parseV4Field (cs : List Char) : Option Nat :=
  if cs.length = 0 ∨ cs.length > 3 then none
  else
    match cs.foldl (fun acc c =>
        match acc, decVal c with
        | some a, some v => some (a * 10 + v)
        | _, _ => none) (some 0) with
    | some v => if v ≤ 255 then some v else none
    | none => none

/-- Dotted-decimal IPv4 parser: exactly four fields separated by dots. -/
def parseIPv4 (cs : List Char) : Option (List Nat) :=
  match splitOnChar '.' cs with
  | [p1, p2, p3, p4] =>
    match parseV4Field p1, parseV4Field p2, parseV4Field p3, parseV4Field p4 with
    | some b1, some b2, some b3, some b4 => some [b1, b2, b3, b4]
    | _, _, _, _ => none
  | _ => none

/-- One 16-bit IPv6 group: one to four hex digits. -/
def parseHexGroup (cs : List Char) : Option Nat :=
  if cs.length = 0 ∨ cs.length > 4 then none
  else cs.foldl (fun acc c =>
    match acc, hexVal c with
    | some a, some v => some (a * 16 + v)
    | _, _ => none) (some 0)

/-- Split a character list at the first `"::"`, if any. -/
def splitDoubleColon : List Char → Option (List Char × List Char)
  | [] => none
  | [_] => none
  | c :: d :: rest =>
    if c = ':' ∧ d = ':' then some ([], rest)
    else (splitDoubleColon (d :: rest)).map (fun p => (c :: p.1, p.2))

/-- Parse colon-separated IPv6 groups into bytes; when `v4ok` is true the
final group may be an embedded dotted IPv4 quad (only legal at the very
end of an address, as in Go's IPv6 parser). -/
def parseV6Groups (v4ok : Bool) : List (List Char) → Option (List Nat)
  | [] => some []
  | [g] =>
    if v4ok && g.contains '.' then parseIPv4 g
    else (parseHexGroup g).map (fun v => [v / 256, v % 256])
  | g :: rest =>
    match parseHexGroup g, parseV6Groups v4ok rest with
    | some v, some bs => some (v / 256 :: v % 256 :: bs)
    | _, _ => none

/-- Colon-separated groups of one side of a `::` ellipsis; an empty side
contributes no groups. -/
def sideGroups (cs : List Char) : List (List Char) :=
  if cs = [] then [] else splitOnChar ':' cs

/-- IPv6 literal parser: either eight groups with no ellipsis, or a
single `::` whose elision must produce at least one zero group
(Go rejects a `::` that expands to nothing); the embedded IPv4 form is
accepted only in the final position. -/
def parseIPv6 (cs : List Char) : Option (List Nat) :=
  match splitDoubleColon cs with
  | none =>
    match parseV6Groups true (splitOnChar ':' cs) with
    | some bs => if bs.length = 16 then some bs else none
    | none => none
  | some (l, r) =>
    if (splitDoubleColon r).isSome then none
    else
      match parseV6Groups false (sideGroups l), parseV6Groups true (sideGroups r) with
      | some lb, some rb =>
        if lb.length + rb.length < 16 then
          some (lb ++ List.replicate (16 - (lb.length + rb.length)) 0 ++ rb)
        else none
      | _, _ => none

/-- Go `net.ParseIP` dispatch: act on the first `'.'` or `':'` found. -/
def findSpecial : List Char → Option Char
  | [] => none
  | c :: rest => if c = '.' ∨ c = ':' then some c else findSpecial rest

/-- Model of `net.ParseIP`: a dotted-decimal address is returned in the
16-byte IPv4-in-IPv6 form (as Go's `v4` constructor does); an IPv6
literal is returned as its 16 bytes; anything else is `none` (`nil`). -/
def parseIP (s : String) : Option (List Nat) :=
  match findSpecial s.data with
  | some '.' => (parseIPv4 s.data).map (fun b => v4MappedFront ++ b)
  | some ':' => parseIPv6 s.data
  | _ => none

/-- Model of Go `IP.To4`: a 4-byte address is itself; a 16-byte address
with the IPv4-in-IPv6 front is its last 4 bytes; otherwise `nil`. -/
def ipTo4 (ip : List Nat) : Option (List Nat) :=
  if ip.length = 4 then some ip
  else if ip.length = 16 ∧ ip.take 12 = v4MappedFront then some (ip.drop 12)
  else none

/-- Model of Go `IP.To16`: a 4-byte address gains the IPv4-in-IPv6
front; a 16-byte address is itself; otherwise `nil`. -/
def ipTo16 (ip : List Nat) : Option (List Nat) :=
  if ip.length = 4 then some (v4MappedFront ++ ip)
  else if ip.length = 16 then some ip
  else none

/-! ### The address encoder (`hostToHex`, `u16PortToHex`, `checkMPTCP`) -/

/-- Model of `hostToHex`: parse the host with `net.ParseIP`; if `To4`
yields a 4-byte address, print its octets reversed with `%02x%02x%02x%02x`;
else if `To16` yields 16 bytes, fail with `ErrIPv6NotImplemented`; else
fail with `ErrInvalidIPAddress`.  (`Option.bind` models Go's method calls
on a possibly-`nil` `IP`.) -/
def hostToHex (host : String) : Except GoErr String :=
  let ip := parseIP host
  match ip.bind ipTo4 with
  | some ip4 =>
    .ok (hex02 (ip4.get! 3) ++ hex02 (ip4.get! 2) ++ hex02 (ip4.get! 1) ++ hex02 (ip4.get! 0))
  | none =>
    match ip.bind ipTo16 with
    | some _ => .error .ipv6NotImplemented
    | none => .error .invalidIPAddress

/-- Model of `binary.LittleEndian.PutUint16`: the two-byte buffer
`[byte 0, byte 1]` holding the port in little-endian order. -/
def putUint16LE (port : Nat) : List Nat := [port % 256, port / 256 % 256]

/-- Model of `u16PortToHex`: store the port little-endian in a 2-byte
buffer, then print `portBuf[1]` followed by `portBuf[0]` with `%02x%02x`. -/
def u16PortToHex (port : Nat) : String :=
  let portBuf := putUint16LE port
  hex02 (portBuf.get! 1) ++ hex02 (portBuf.get! 0)

/-- Port-hex rule as claim C4 words it (spec-side definition, for
comparison with `u16PortToHex`): hex of the least-significant byte of the
port followed by hex of the most-significant byte. -/
def u16PortToHexClaimLE (port : Nat) : String :=
  hex02 (port % 256) ++ hex02 (port / 256 % 256)

/-- Model of `net.JoinHostPort`: bracket the host when it contains a
colon, otherwise join with a single colon. -/
def joinHostPort (host port : String) : String :=
  if ':' ∈ host.data then "[" ++ host ++ "]:" ++ port
  else host ++ ":" ++ port

/-- Model of `strings.ToUpper` on ASCII data (every string this package
uppercases consists of hex digits and a colon). -/
def goToUpper (s : String) : String := String.mk (s.data.map Char.toUpper)

/-- The key computation inside `checkMPTCP` (source line 59-65): hex host,
hex port, joined and uppercased; errors from `hostToHex` propagate. -/
def checkMPTCPKey (host : String) (port : Nat) : Except GoErr String :=
  match hostToHex host with
  | .error e => .error e
  | .ok hexHost => .ok (goToUpper (joinHostPort hexHost (u16PortToHex port)))

/-! ### The table row parser and table scanner -/

/-- Number of columns in a valid Linux MPTCP connections table
(`mptcpTableColumns`). -/
def mptcpTableColumns : Nat := 10

/-- The exact header literal `mptcpTableHeader` from the source. -/
def mptcpTableHeader : String :=
  "  sl  loc_tok  rem_tok  v6 local_address                         remote_address                        st ns tx_queue rx_queue inode"

/-- A parsed `mptcpTableEntry`: only the IPv6 marker and the remote
address are retained. -/
structure mptcpTableEntry where
  IsIPv6 : Bool
  RemoteAddr : String
deriving DecidableEq, Repr

/-- Model of `newMPTCPTableEntry`: reject any field count other than
`mptcpTableColumns`, read the IPv6 marker from `fields[3]` and the remote
address from `fields[5]` verbatim. -/
def newMPTCPTableEntry (fields : List String) : Except GoErr mptcpTableEntry :=
  if fields.length ≠ mptcpTableColumns then .error .invalidEntry
  else .ok { IsIPv6 := fields.get! 3 == "1", RemoteAddr := fields.get! 5 }

/-- ASCII whitespace recognised by Go's `strings.Fields`
(`asciiSpace`: tab, newline, vertical tab, form feed, carriage return,
space); the kernel table is pure ASCII. -/
def goIsSpace (c : Char) : Bool :=
  c == ' ' || c == '\t' || c == '\n' || c == '\x0b' || c == '\x0c' || c == '\r'

/-- Accumulator pass behind `goFields`: split around maximal runs of
whitespace, keeping no empty fields. -/
def fieldsGo : List Char → List Char → List String
  | [], acc => if acc.isEmpty then [] else [String.mk acc.reverse]
  | c :: rest, acc =>
    if goIsSpace c then
      if acc.isEmpty then fieldsGo rest []
      else String.mk acc.reverse :: fieldsGo rest []
    else fieldsGo rest (c :: acc)

/-- Model of `strings.Fields`: the whitespace-separated fields of a line,
with no empty fields. -/
def goFields (s : String) : List String := fieldsGo s.data []

/-- A byte stream consumed through `bufio.Scanner` with `ScanLines`: the
scanner delivers `lines` one by one, after which `Scan` reports false and
`Err` reports `readErr` (`none` models a clean EOF, `some e` a read
failure after the listed lines were delivered). -/
structure GoStream where
  lines : List String
  readErr : Option GoErr
deriving DecidableEq, Repr

/-- The `for scanner.Scan()` loop of `mptcpTableReaderLinux`: parse each
line's fields, abort on a parse error, succeed on the first entry whose
`RemoteAddr` equals the target, and fall through to `(false, nil)` when
`Scan` reports false.  The source never consults `scanner.Err()`, so the
loop's result cannot depend on the stream's terminal read error. -/
def scanRows (hexHostPort : String) : List String → Bool × Option GoErr
  | [] => (false, none)
  | line :: rest =>
    match newMPTCPTableEntry (goFields line) with
    | .error e => (false, some e)
    | .ok entry =>
      if entry.RemoteAddr = hexHostPort then (true, none)
      else scanRows hexHostPort rest

/-- Model of `mptcpTableReaderLinux`: an empty stream yields
`io.ErrUnexpectedEOF`; a first line differing from `mptcpTableHeader`
yields `errInvalidMPTCPTable`; otherwise the row loop runs. -/
def mptcpTableReaderLinux (r : GoStream) (hexHostPort : String) : Bool × Option GoErr :=
  match r.lines with
  | [] => (false, some .unexpectedEOF)
  | first :: rest =>
    if first = mptcpTableHeader then scanRows hexHostPort rest
    else (false, some .invalidTable)

/-- Model of the Linux `checkMPTCP`, with the swappable
`lookupMPTCPLinux` seam instantiated by an explicit input stream: compute
the uppercased hex key, propagate encoder errors, then scan the table. -/
def checkMPTCP (r : GoStream) (host : String) (port : Nat) : Bool × Option GoErr :=
  match checkMPTCPKey host port with
  | .error e => (false, some e)
  | .ok hexHostPort => mptcpTableReaderLinux r hexHostPort

/-! ### Non-Linux stubs (`check_others.go`) -/

/-- Model of the non-Linux `checkMPTCP`: always `(false, ErrNotImplemented)`. -/
def checkMPTCPOthers (host : String) (port : Nat) : Bool × Option GoErr :=
  (false, some .notImplemented)

/-- Model of the non-Linux `mptcpEnabled`: always `(false, nil)`. -/
def mptcpEnabledOthers : Bool × Option GoErr := (false, none)

/-- A row both parses (ten fields) and does not carry the target key in
its remote-address column; rows of this kind are passed over by the scan
loop. -/
def rowParsesNoMatch (key line : String) : Bool :=
  match newMPTCPTableEntry (goFields line) with
  | .ok entry => entry.RemoteAddr != key
  | .error _ => false

/-! ### Helper lemmas -/

theorem option_bind_some {α β : Type} (a : α) (f : α → Option β) :
    (some a).bind f = f a := rfl

theorem hexDigitChar_ne_colon (n : Nat) : hexDigitChar n ≠ ':' := by
  unfold hexDigitChar
  split <;> decide

theorem colon_not_mem_hex02 (n : Nat) : ':' ∉ (hex02 n).data := by
  intro hmem
  have hmem' : ':' ∈ [hexDigitChar (n / 16), hexDigitChar (n % 16)] := hmem
  simp only [List.mem_cons, List.not_mem_nil, or_false] at hmem'
  rcases hmem' with h | h
  · exact hexDigitChar_ne_colon _ h.symm
  · exact hexDigitChar_ne_colon _ h.symm

theorem data_append_eq (s t : String) : (s ++ t).data = s.data ++ t.data := by
  cases s
  cases t
  rfl

theorem colon_not_mem_hex4 (a b c d : Nat) :
    ':' ∉ (hex02 a ++ hex02 b ++ hex02 c ++ hex02 d).data := by
  intro hmem
  simp only [data_append_eq, List.mem_append] at hmem
  rcases hmem with ((h | h) | h) | h <;> exact colon_not_mem_hex02 _ h

theorem joinHostPort_no_colon {host : String} (port : String) (h : ':' ∉ host.data) :
    joinHostPort host port = host ++ ":" ++ port := by
  unfold joinHostPort
  rw [if_neg h]

theorem parseIPv4_length {cs : List Char} {b : List Nat} (h : parseIPv4 cs = some b) :
    b.length = 4 := by
  unfold parseIPv4 at h
  split at h
  · split at h
    · cases h
      rfl
    · cases h
  · cases h

theorem parseIPv6_length {cs : List Char} {b : List Nat} (h : parseIPv6 cs = some b) :
    b.length = 16 := by
  unfold parseIPv6 at h
  split at h
  · split at h
    · split at h
      · cases h
        assumption
      · cases h
    · cases h
  · split at h
    · cases h
    · split at h
      · split at h
        · cases h
          rename_i lb rb hlt _ _
          simp only [List.length_append, List.length_replicate]
          omega
        · cases h
      · cases h

theorem parseIP_length {s : String} {ip : List Nat} (h : parseIP s = some ip) :
    ip.length = 16 := by
  unfold parseIP at h
  split at h
  · rcases Option.map_eq_some'.mp h with ⟨b, hb, rfl⟩
    simp only [List.length_append, parseIPv4_length hb]
    rfl
  · exact parseIPv6_length h
  · cases h

theorem fieldsGo_ws_nil {l : List Char} (h : ∀ c ∈ l, goIsSpace c = true) :
    fieldsGo l [] = [] := by
  induction l with
  | nil => rfl
  | cons c rest ih =>
    unfold fieldsGo
    rw [if_pos (h c (List.mem_cons_self c rest))]
    simp only [List.isEmpty_nil, if_true]
    exact ih (fun x hx => h x (List.mem_cons_of_mem c hx))

theorem reader_cons_header {rows : List String} {re : Option GoErr} {key : String} :
    mptcpTableReaderLinux ⟨mptcpTableHeader :: rows, re⟩ key = scanRows key rows := by
  show (if mptcpTableHeader = mptcpTableHeader then scanRows key rows
    else (false, some GoErr.invalidTable)) = scanRows key rows
  rw [if_pos rfl]

theorem scanRows_no_match {key : String} {rows : List String}
    (h : ∀ l ∈ rows, rowParsesNoMatch key l = true) :
    scanRows key rows = (false, none) := by
  induction rows with
  | nil => rfl
  | cons l rest ih =>
    have hl := h l (List.mem_cons_self l rest)
    unfold rowParsesNoMatch at hl
    unfold scanRows
    cases hE : newMPTCPTableEntry (goFields l) with
    | error e =>
      rw [hE] at hl
      cases hl
    | ok entry =>
      rw [hE] at hl
      simp only [bne_iff_ne, ne_eq] at hl
      simp only [hE]
      rw [if_neg hl]
      exact ih (fun x hx => h x (List.mem_cons_of_mem l hx))

theorem scanRows_match {key row : String} {front : List String} (suf : List String)
    (hfront : ∀ l ∈ front, rowParsesNoMatch key l = true)
    {e : mptcpTableEntry} (hok : newMPTCPTableEntry (goFields row) = .ok e)
    (hkey : e.RemoteAddr = key) :
    scanRows key (front ++ row :: suf) = (true, none) := by
  induction front with
  | nil =>
    simp only [List.nil_append]
    unfold scanRows
    simp only [hok]
    rw [if_pos hkey]
  | cons l rest ih =>
    have hl := hfront l (List.mem_cons_self l rest)
    unfold rowParsesNoMatch at hl
    simp only [List.cons_append]
    unfold scanRows
    cases hE : newMPTCPTableEntry (goFields l) with
    | error e2 =>
      rw [hE] at hl
      cases hl
    | ok entry =>
      rw [hE] at hl
      simp only [bne_iff_ne, ne_eq] at hl
      simp only [hE]
      rw [if_neg hl]
      exact ih (fun x hx => hfront x (List.mem_cons_of_mem l hx))

theorem scanRows_error {key row : String} {front : List String} (suf : List String)
    (hfront : ∀ l ∈ front, rowParsesNoMatch key l = true)
    {err : GoErr} (herr : newMPTCPTableEntry (goFields row) = .error err) :
    scanRows key (front ++ row :: suf) = (false, some err) := by
  induction front with
  | nil =>
    simp only [List.nil_append]
    unfold scanRows
    simp only [herr]
  | cons l rest ih =>
    have hl := hfront l (List.mem_cons_self l rest)
    unfold rowParsesNoMatch at hl
    simp only [List.cons_append]
    unfold scanRows
    cases hE : newMPTCPTableEntry (goFields l) with
    | error e2 =>
      rw [hE] at hl
      cases hl
    | ok entry =>
      rw [hE] at hl
      simp only [bne_iff_ne, ne_eq] at hl
      simp only [hE]
      rw [if_neg hl]
      exact ih (fun x hx => hfront x (List.mem_cons_of_mem l hx))

/-! ## Claim theorems -/

/-- Claim C1: for every host string that parses as an IPv4 address with
octets `(a,b,c,d)` (the hypothesis is the code's own criterion:
`net.ParseIP` succeeds and `To4` yields the four octets) and every port,
the encoder of `checkMPTCP` returns, with no error, the 2-digit lowercase
hex of `d`, `c`, `b`, `a` in that order, a colon, and the port's
little-endian buffer printed `buffer[1]` then `buffer[0]`, the whole
string uppercased. -/
theorem checkMPTCP_encodes_ipv4 (host : String) (port a b c d : Nat) (ip : List Nat)
    (hip : parseIP host = some ip) (h4 : ipTo4 ip = some [a, b, c, d]) :
    checkMPTCPKey host port =
      .ok (goToUpper (hex02 d ++ hex02 c ++ hex02 b ++ hex02 a ++ ":"
        ++ (hex02 (port / 256 % 256) ++ hex02 (port % 256)))) := by
  have hhost : hostToHex host = .ok (hex02 d ++ hex02 c ++ hex02 b ++ hex02 a) := by
    simp only [hostToHex, hip, option_bind_some, h4]
    rfl
  have hj := joinHostPort_no_colon (u16PortToHex port) (colon_not_mem_hex4 d c b a)
  simp only [checkMPTCPKey, hhost, hj]
  rfl

/-- Claim C1 witness: host `127.0.0.1` with port 80 yields the key
`0100007F:0050`. -/
theorem checkMPTCP_encodes_ipv4_witness :
    checkMPTCPKey "127.0.0.1" 80 = .ok "0100007F:0050" := by
  have h := checkMPTCP_encodes_ipv4 "127.0.0.1" 80 127 0 0 1
    [0, 0, 0, 0, 0, 0, 0, 0, 0, 0, 255, 255, 127, 0, 0, 1] (by decide) (by decide)
  exact h.trans (by rfl)

/-- Claim C2 counterexample: `"::ffff:1.2.3.4"` is a syntactically valid
IPv6 literal (`net.ParseIP` yields its 16 bytes), yet the encoder does
not fail with `ErrIPv6NotImplemented`: `To4` strips the IPv4-in-IPv6
front, so the IPv4 encoding logic runs and returns `"04030201"`. -/
theorem hostToHex_v4mapped_cex :
    parseIP "::ffff:1.2.3.4" = some [0, 0, 0, 0, 0, 0, 0, 0, 0, 0, 255, 255, 1, 2, 3, 4]
    ∧ hostToHex "::ffff:1.2.3.4" = .ok "04030201" := by
  constructor
  · decide
  · rfl

/-- Claim C2 as amended: a valid IPv6 literal whose parsed address is not
in the IPv4-in-IPv6 form (`To4` fails) always makes `hostToHex` fail with
`ErrIPv6NotImplemented`; IPv4-mapped literals instead take the IPv4
path. -/
theorem hostToHex_ipv6_error (host : String) (ip : List Nat)
    (hip : parseIP host = some ip) (h4 : ipTo4 ip = none) :
    hostToHex host = .error GoErr.ipv6NotImplemented := by
  have hlen : ip.length = 16 := parseIP_length hip
  have h16 : ipTo16 ip = some ip := by
    unfold ipTo16
    rw [if_neg (by omega), if_pos hlen]
  simp only [hostToHex, hip, option_bind_some, h4, h16]

/-- Claim C2 amended witness: `"::1"` fails with `ErrIPv6NotImplemented`. -/
theorem hostToHex_ipv6_error_witness :
    hostToHex "::1" = .error GoErr.ipv6NotImplemented :=
  hostToHex_ipv6_error "::1" [0, 0, 0, 0, 0, 0, 0, 0, 0, 0, 0, 0, 0, 0, 0, 1]
    (by decide) (by decide)

/-- Claim C3: the code never consults `scanner.Err()`, so a read failure
occurring after the valid header line is swallowed and the scan returns
`(false, nil)` instead of the I/O error — here evaluated on a stream that
delivers the header and one valid row and then fails. -/
theorem reader_swallows_read_error :
    mptcpTableReaderLinux
      ⟨[mptcpTableHeader, "1 a b 0 x 2200007F:0050 s n t q"],
        some (GoErr.ioError "read failure")⟩ "0100007F:0050" = (false, none)
    ∧ mptcpTableReaderLinux ⟨[mptcpTableHeader], some (GoErr.ioError "read failure")⟩
        "0100007F:0050" = (false, none) := by
  constructor
  · decide
  · decide

/-- Claim C4 counterexample: for port 80 the code renders `"0050"` —
most-significant byte first — while the claimed least-significant-first
rendering would be `"5000"`. -/
theorem u16PortToHex_le_cex :
    u16PortToHex 80 = "0050" ∧ u16PortToHexClaimLE 80 = "5000"
    ∧ u16PortToHex 80 ≠ u16PortToHexClaimLE 80 := by
  refine ⟨by decide, by decide, by decide⟩

/-- Claim C4 as amended: the `HEXPORT` half is the hex of the
most-significant byte of the port followed by the hex of the
least-significant byte (the little-endian buffer is printed `buffer[1]`
then `buffer[0]`, i.e. big-endian). -/
theorem u16PortToHex_msb_first (port : Nat) (hp : port < 65536) :
    u16PortToHex port = hex02 (port / 256) ++ hex02 (port % 256) := by
  have h : port / 256 % 256 = port / 256 := Nat.mod_eq_of_lt (by omega)
  unfold u16PortToHex putUint16LE
  simp only [List.get!, h]

/-- Claim C4 amended witness at port 80. -/
theorem u16PortToHex_msb_first_witness :
    u16PortToHex 80 = hex02 (80 / 256) ++ hex02 (80 % 256) :=
  u16PortToHex_msb_first 80 (by decide)

/-- Claim C5: for a stream beginning with the exact header, (1) as soon
as a row whose remote-address field equals the target is reached after
rows that parse and do not match, the scan returns `(true, nil)` no
matter what follows it or how the stream would later end; (2) if a row
fails to parse after such rows, its parse error is returned immediately,
again regardless of anything later; (3) if every row parses and none
matches and the stream ends, the scan returns `(false, nil)`. -/
theorem reader_scan_spec (key row : String) (front suf rows : List String) (re : Option GoErr)
    (hfront : ∀ l ∈ front, rowParsesNoMatch key l = true) :
    ((∃ e, newMPTCPTableEntry (goFields row) = .ok e ∧ e.RemoteAddr = key) →
        mptcpTableReaderLinux ⟨mptcpTableHeader :: (front ++ row :: suf), re⟩ key
          = (true, none))
    ∧ (∀ err, newMPTCPTableEntry (goFields row) = .error err →
        mptcpTableReaderLinux ⟨mptcpTableHeader :: (front ++ row :: suf), re⟩ key
          = (false, some err))
    ∧ ((∀ l ∈ rows, rowParsesNoMatch key l = true) →
        mptcpTableReaderLinux ⟨mptcpTableHeader :: rows, none⟩ key = (false, none)) := by
  refine ⟨?_, ?_, ?_⟩
  · rintro ⟨e, hok, hkey⟩
    rw [reader_cons_header]
    exact scanRows_match suf hfront hok hkey
  · intro err herr
    rw [reader_cons_header]
    exact scanRows_error suf hfront herr
  · intro hrows
    rw [reader_cons_header]
    exact scanRows_no_match hrows

/-- Claim C5 witness: a matching second row short-circuits even though a
junk line and a read failure follow; a malformed second row aborts with
`errInvalidMPTCPEntry` before the junk line; a fully parsed, matchless
stream gives `(false, nil)`. -/
theorem reader_scan_spec_witness :
    mptcpTableReaderLinux
      ⟨[mptcpTableHeader, "1 a b 0 x 2200007F:0050 s n t q",
        "1 a b 0 x 0100007F:0050 s n t q", "###"],
        some (GoErr.ioError "late failure")⟩ "0100007F:0050" = (true, none)
    ∧ mptcpTableReaderLinux
      ⟨[mptcpTableHeader, "1 a b 0 x 2200007F:0050 s n t q", "1 2 3", "###"], none⟩
        "0100007F:0050" = (false, some GoErr.invalidEntry)
    ∧ mptcpTableReaderLinux
      ⟨[mptcpTableHeader, "1 a b 0 x 2200007F:0050 s n t q"], none⟩
        "0100007F:0050" = (false, none) := by
  have h1 := reader_scan_spec "0100007F:0050" "1 a b 0 x 0100007F:0050 s n t q"
    ["1 a b 0 x 2200007F:0050 s n t q"] ["###"] [] (some (GoErr.ioError "late failure"))
    (by decide)
  have h2 := reader_scan_spec "0100007F:0050" "1 2 3"
    ["1 a b 0 x 2200007F:0050 s n t q"] ["###"] ["1 a b 0 x 2200007F:0050 s n t q"] none
    (by decide)
  exact ⟨h1.1 ⟨⟨false, "0100007F:0050"⟩, by rfl, rfl⟩,
    h2.2.1 GoErr.invalidEntry (by rfl),
    h2.2.2 (by decide)⟩

/-- Claim C6: the row parser fails with `errInvalidMPTCPEntry` exactly
when the field sequence does not have ten fields; on exactly ten fields
it succeeds with `IsIPv6` true exactly when `fields[3]` is `"1"` and
`RemoteAddr` equal to `fields[5]` verbatim. -/
theorem newMPTCPTableEntry_spec (fields : List String) :
    (newMPTCPTableEntry fields = .error GoErr.invalidEntry ↔ fields.length ≠ 10)
    ∧ (fields.length = 10 →
        newMPTCPTableEntry fields = .ok ⟨fields.get! 3 == "1", fields.get! 5⟩) := by
  by_cases h : fields.length = 10 <;>
    simp [newMPTCPTableEntry, mptcpTableColumns, h]

/-- Claim C6 witness: a ten-field row with marker `"1"` parses to an
IPv6-marked entry carrying column five verbatim; a one-field row fails
with `errInvalidMPTCPEntry`. -/
theorem newMPTCPTableEntry_spec_witness :
    newMPTCPTableEntry ["a", "b", "c", "1", "e", "AbC:1", "g", "h", "i", "j"]
      = .ok ⟨true, "AbC:1"⟩
    ∧ newMPTCPTableEntry ["a"] = .error GoErr.invalidEntry := by
  refine ⟨?_, ?_⟩
  · have h := (newMPTCPTableEntry_spec ["a", "b", "c", "1", "e", "AbC:1", "g", "h", "i", "j"]).2 rfl
    exact h.trans (by rfl)
  · exact (newMPTCPTableEntry_spec ["a"]).1.mpr (by decide)

/-- Claim C7: an empty stream makes the table scanner fail with
`io.ErrUnexpectedEOF`, and a present first line that differs from the
exact header literal makes it fail with `errInvalidMPTCPTable`; in both
cases `found` is false. -/
theorem reader_header_spec (r : GoStream) (key : String) :
    (r.lines = [] →
        mptcpTableReaderLinux r key = (false, some GoErr.unexpectedEOF))
    ∧ (∀ first rest, r.lines = first :: rest → first ≠ mptcpTableHeader →
        mptcpTableReaderLinux r key = (false, some GoErr.invalidTable)) := by
  obtain ⟨lines, re⟩ := r
  constructor
  · intro h
    simp only at h
    subst h
    rfl
  · intro first rest h hne
    simp only at h
    subst h
    show (if first = mptcpTableHeader then scanRows key rest
      else (false, some GoErr.invalidTable)) = (false, some GoErr.invalidTable)
    rw [if_neg hne]

/-- Claim C7 witness: the empty stream and a one-line stream whose first
line is not the header. -/
theorem reader_header_spec_witness :
    mptcpTableReaderLinux ⟨[], none⟩ "0100007F:0050"
      = (false, some GoErr.unexpectedEOF)
    ∧ mptcpTableReaderLinux ⟨["bogus"], none⟩ "0100007F:0050"
      = (false, some GoErr.invalidTable) :=
  ⟨(reader_header_spec ⟨[], none⟩ "0100007F:0050").1 rfl,
   (reader_header_spec ⟨["bogus"], none⟩ "0100007F:0050").2 "bogus" [] rfl (by decide)⟩

/-- Claim C8 counterexample: the key computed for `127.0.0.1:80` is
`"0100007F:0050"`; a table entry whose remote-address field is its
lowercase form is equal to it after uppercase normalisation, yet the
lookup reports no match, because the comparison is exact string
equality. -/
theorem checkMPTCP_case_sensitive_cex :
    checkMPTCPKey "127.0.0.1" 80 = .ok "0100007F:0050"
    ∧ goToUpper "0100007f:0050" = goToUpper "0100007F:0050"
    ∧ checkMPTCP
        ⟨[mptcpTableHeader, "0 00000000 00000000 0 00000000:0000 0100007f:0050 0 0 0 123"],
          none⟩ "127.0.0.1" 80 = (false, none) := by
  refine ⟨by rfl, by rfl, by rfl⟩

/-- Claim C8 as amended: the query is satisfied whenever the Encoded
Address Key computed from `(host, port)` — already uppercased by the
encoder — is exactly (case-sensitively) equal to the `RemoteAddr` of a
scanned entry; entries are compared as stored, so a lowercase-stored
entry is not matched. -/
theorem checkMPTCP_match_exact (host : String) (port : Nat) (key row : String)
    (front suf : List String) (re : Option GoErr)
    (hkey : checkMPTCPKey host port = .ok key)
    (hfront : ∀ l ∈ front, rowParsesNoMatch key l = true)
    (hrow : ∃ e, newMPTCPTableEntry (goFields row) = .ok e ∧ e.RemoteAddr = key) :
    checkMPTCP ⟨mptcpTableHeader :: (front ++ row :: suf), re⟩ host port
      = (true, none) := by
  obtain ⟨e, hok, hm⟩ := hrow
  simp only [checkMPTCP, hkey]
  rw [reader_cons_header]
  exact scanRows_match suf hfront hok hm

/-- Claim C8 amended witness: an entry stored exactly as the uppercase
key is reported as a match for `127.0.0.1:80`. -/
theorem checkMPTCP_match_exact_witness :
    checkMPTCP
      ⟨[mptcpTableHeader, "0 00000000 00000000 0 00000000:0000 0100007F:0050 0 0 0 123"],
        none⟩ "127.0.0.1" 80 = (true, none) :=
  checkMPTCP_match_exact "127.0.0.1" 80 "0100007F:0050"
    "0 00000000 00000000 0 00000000:0000 0100007F:0050 0 0 0 123" [] [] none
    (by rfl) (by decide) ⟨⟨false, "0100007F:0050"⟩, by rfl, rfl⟩

/-- Claim C9 counterexample: on non-Linux platforms `mptcpEnabled`
returns `(false, nil)` — no error at all — not the not-implemented
error the claim asserts for both query functions. -/
theorem mptcpEnabledOthers_cex :
    mptcpEnabledOthers = (false, none)
    ∧ mptcpEnabledOthers.2 ≠ some GoErr.notImplemented := by
  refine ⟨rfl, by decide⟩

/-- Claim C9 as amended: on non-Linux platforms `checkMPTCP` returns
`ErrNotImplemented` for every input without attempting any probe, while
`mptcpEnabled` returns `(false, nil)` with no error. -/
theorem nonLinux_stub_spec :
    (∀ (host : String) (port : Nat),
        checkMPTCPOthers host port = (false, some GoErr.notImplemented))
    ∧ mptcpEnabledOthers = (false, none) :=
  ⟨fun _ _ => rfl, rfl⟩

/-- Claim C10: with a valid header, a line that is empty or all
whitespace occurring after rows that parse and do not match makes the
scan fail with `errInvalidMPTCPEntry` (splitting it into fields yields
zero fields, and zero is not ten), rather than returning `(false, nil)`. -/
theorem reader_blank_line_invalid (key ws : String) (front suf : List String)
    (re : Option GoErr)
    (hfront : ∀ l ∈ front, rowParsesNoMatch key l = true)
    (hws : ∀ c ∈ ws.data, goIsSpace c = true) :
    mptcpTableReaderLinux ⟨mptcpTableHeader :: (front ++ ws :: suf), re⟩ key
      = (false, some GoErr.invalidEntry) := by
  have hfe : goFields ws = [] := fieldsGo_ws_nil hws
  have herr : newMPTCPTableEntry (goFields ws) = .error GoErr.invalidEntry := by
    rw [hfe]
    rfl
  rw [reader_cons_header]
  exact scanRows_error suf hfront herr

/-- Claim C10 witness: a trailing blank line after a parsed, matchless
row yields `errInvalidMPTCPEntry`. -/
theorem reader_blank_line_invalid_witness :
    mptcpTableReaderLinux
      ⟨[mptcpTableHeader, "1 a b 0 x 2200007F:0050 s n t q", ""], none⟩
      "0100007F:0050" = (false, some GoErr.invalidEntry) :=
  reader_blank_line_invalid "0100007F:0050" "" ["1 a b 0 x 2200007F:0050 s n t q"] [] none
    (by decide) (by decide)

end Mptcp
